import Mathlib

/-!
Verification of the Gentoo network helper module
(`src/commands/gentoo/network.py` of openstack-guest-agents-unix).

The module is embedded shallowly:

* Python strings are Lean `String`s; `"\n".join(lines)` is `pyJoin "\n"`.
* Python dicts of interface descriptors are association lists
  `List (String × Interface)` iterated in order; the descriptor fields keep
  the source's key names (`label`, `ip4s`, `ip6s`, `routes`, `gateway4`,
  `gateway6`, `dns`).  An `Option String` field models the combination of
  Python's `'key' in dict` test (`isSome`) and truthiness
  (`some g` with `g ≠ ""`).
* A lookup miss in `NETMASK_TO_PREFIXLEN` (a Python `KeyError`) makes a
  render return `none`; renders that cannot fail are total functions.
* The side-effecting orchestrator `configure_network` is embedded as a pure
  function from a `World` (the outcomes of every external probe and
  subprocess) to a trace of `Action`s plus an `Except` result, so that the
  Python `UnboundLocalError` on the variable `status` is observable.
-/

namespace GentooNet

/-- Python's `sep.join(strings)`: the empty string on an empty list,
the sole element on a singleton, and interleaved separators otherwise. -/
def pyJoin (sep : String) : List String → String
  | [] => ""
  | [a] => a
  | a :: rest => a ++ sep ++ pyJoin sep rest

/-- Element of `interface['ip4s']`: a dict with keys `address`, `netmask`. -/
structure Ip4 where
  address : String
  netmask : String
deriving DecidableEq, Repr

/-- Element of `interface['ip6s']`: a dict with keys `address`, `prefixlen`.
The source only ever interpolates `prefixlen` into a format string, so it is
kept as a string. -/
structure Ip6 where
  address : String
  prefixlen : String
deriving DecidableEq, Repr

/-- Element of `interface['routes']`: keys `network`, `netmask`, `gateway`. -/
structure Route where
  network : String
  netmask : String
  gateway : String
deriving DecidableEq, Repr

/-- One interface descriptor.  `gateway4 = none` models the key being
absent from the dict (`'gateway4' not in interface`); `some ""` models a
present-but-falsy value, which matters because the route filter tests key
presence while the `default via` line additionally tests truthiness. -/
structure Interface where
  label : String
  ip4s : List Ip4
  ip6s : List Ip6
  routes : List Route
  gateway4 : Option String
  gateway6 : Option String
  dns : List String
deriving DecidableEq, Repr

/-- Modelled from the spec: `commands.network.NETMASK_TO_PREFIXLEN` lives in
the shared `commands.network` module, which is not part of the sources under
review; the spec describes it as "a fixed lookup table" from dotted IPv4
netmasks to CIDR prefix lengths on which "unmapped netmasks fail the
render" (e.g. `255.255.255.0` maps to `24`).  It is embedded as a partial
map returning `none` on unmapped keys, which the renders propagate as a
failed render (the Python `KeyError`). -/
def NETMASK_TO_PREFIXLEN (netmask : String) : Option Nat :=
  match netmask with
  | "0.0.0.0" => some 0
  | "128.0.0.0" => some 1
  | "192.0.0.0" => some 2
  | "224.0.0.0" => some 3
  | "240.0.0.0" => some 4
  | "248.0.0.0" => some 5
  | "252.0.0.0" => some 6
  | "254.0.0.0" => some 7
  | "255.0.0.0" => some 8
  | "255.128.0.0" => some 9
  | "255.192.0.0" => some 10
  | "255.224.0.0" => some 11
  | "255.240.0.0" => some 12
  | "255.248.0.0" => some 13
  | "255.252.0.0" => some 14
  | "255.254.0.0" => some 15
  | "255.255.0.0" => some 16
  | "255.255.128.0" => some 17
  | "255.255.192.0" => some 18
  | "255.255.224.0" => some 19
  | "255.255.240.0" => some 20
  | "255.255.248.0" => some 21
  | "255.255.252.0" => some 22
  | "255.255.254.0" => some 23
  | "255.255.255.0" => some 24
  | "255.255.255.128" => some 25
  | "255.255.255.192" => some 26
  | "255.255.255.224" => some 27
  | "255.255.255.240" => some 28
  | "255.255.255.248" => some 29
  | "255.255.255.252" => some 30
  | "255.255.255.254" => some 31
  | "255.255.255.255" => some 32
  | _ => none

/-- A Python list comprehension whose element expression may raise
(`KeyError` on a netmask lookup): the whole comprehension fails as soon as
one element fails. -/
def mapO {α β : Type} (f : α → Option β) : List α → Option (List β)
  | [] => some []
  | x :: xs =>
    match f x, mapO f xs with
    | some y, some ys => some (y :: ys)
    | _, _ => none

/-- Embedding of `_header()`.  The source interpolates `datetime.now()` and
`sys.argv[0]`; both are parameters (`time`, `comm`) of the embedding. -/
def _header (time comm : String) : String :=
  "# Creator: NOVA AGENT:\n        # This file was autogenerated at " ++ time
    ++ " by " ++ comm
    ++ ".\n        # While it can still be managed manually, definitely not recommended.\n        "

/-- The lines both render dialects emit before the per-interface blocks:
the header, a blank line, the `modules=` selector chosen by probing for an
`ip` command, and two blank lines. -/
def preambleLines (ipAvail : Bool) (time comm : String) : List String :=
  [_header time comm, "",
   if ipAvail then "modules=\"iproute2\"" else "modules=\"ifconfig\"",
   "", ""]

/-- The `# Label ...` comment line, emitted only when `interface['label']`
is truthy. -/
def labelLines (iface : Interface) : List String :=
  if iface.label ≠ "" then ["# Label " ++ iface.label] else []

/-- The filter of the route comprehensions, identical in both dialects:
`not route['network'] == '0.0.0.0' and not route['netmask'] == '0.0.0.0'
and 'gateway4' in interface and not route['gateway'] ==
interface['gateway4']`. -/
def routeIncluded (iface : Interface) (r : Route) : Bool :=
  (r.network ≠ "0.0.0.0" : Bool) && (r.netmask ≠ "0.0.0.0" : Bool) &&
    (match iface.gateway4 with
     | some g => (r.gateway ≠ g : Bool)
     | none => false)

/-- The routes surviving the filter, i.e. the ones rendered as explicit
per-route lines by both dialects. -/
def explicitRoutes (iface : Interface) : List Route :=
  iface.routes.filter (routeIncluded iface)

/-- The openrc `  default via <gw>` line for one optional gateway field:
emitted only when the key is present and its value truthy. -/
def defaultVia (og : Option String) : List String :=
  match og with
  | some g => if g ≠ "" then ["  default via " ++ g] else []
  | none => []

/-- The `default via` lines appended after the explicit routes: one for a
present-and-truthy `gateway4`, then one for a present-and-truthy
`gateway6`. -/
def gatewayLines (iface : Interface) : List String :=
  defaultVia iface.gateway4 ++ defaultVia iface.gateway6

/-- OpenRC dialect IPv4 address line `  address/prefixlen`; fails when the
netmask has no entry in `NETMASK_TO_PREFIXLEN`. -/
def fmtIp4 (ip : Ip4) : Option String :=
  (NETMASK_TO_PREFIXLEN ip.netmask).map
    (fun p => "  " ++ ip.address ++ "/" ++ toString p)

/-- OpenRC dialect IPv6 address line `  address/prefixlen`. -/
def fmtIp6 (ip : Ip6) : String :=
  "  " ++ ip.address ++ "/" ++ ip.prefixlen

/-- OpenRC dialect route line `  network/prefixlen via gateway`; fails when
the netmask has no entry in `NETMASK_TO_PREFIXLEN`. -/
def fmtRoute (r : Route) : Option String :=
  (NETMASK_TO_PREFIXLEN r.netmask).map
    (fun p => "  " ++ r.network ++ "/" ++ toString p ++ " via " ++ r.gateway)

/-- OpenRC dialect DNS block: a single list element
`dns_servers_<name>="<ip1>\n<ip2>..."\n` followed by a blank line, emitted
only when the DNS sequence is non-empty. -/
def dnsLines (name : String) (iface : Interface) : List String :=
  if iface.dns ≠ [] then
    ["dns_servers_" ++ name ++ "=\"" ++ pyJoin "\n" iface.dns ++ "\"\n", ""]
  else []

/-- Opening line of the openrc `config_<name>` block. -/
def configOpen (name : String) : String := "config_" ++ name ++ "=\""

/-- Opening line of the openrc `routes_<name>` block. -/
def routesOpen (name : String) : String := "routes_" ++ name ++ "=\""

/-- Opening line of the legacy `config_<name>` array. -/
def configOpenL (name : String) : String := "config_" ++ name ++ "=("

/-- Opening line of the legacy `routes_<name>` array. -/
def routesOpenL (name : String) : String := "routes_" ++ name ++ "=("

/-- The openrc per-interface lines in source order — label comment,
`config_<name>` block, `routes_<name>` block, DNS block — parameterised by
the already-formatted IPv4 and route lines. -/
def blockShape (name : String) (iface : Interface) (ip4L routeL : List String) :
    List String :=
  labelLines iface
    ++ [configOpen name]
    ++ ip4L
    ++ iface.ip6s.map fmtIp6
    ++ ["\"", ""]
    ++ [routesOpen name]
    ++ routeL
    ++ gatewayLines iface
    ++ ["\"", ""]
    ++ dnsLines name iface

/-- The lines `_confd_net_file` emits for one interface: `blockShape` on
the formatted address and route lines, failing on a netmask lookup miss. -/
def confdBlock (name : String) (iface : Interface) : Option (List String) := do
  let ip4L ← mapO fmtIp4 iface.ip4s
  let routeL ← mapO fmtRoute (explicitRoutes iface)
  pure (blockShape name iface ip4L routeL)

/-- The per-interface part of `_confd_net_file`: the emitted lines together
with the accumulated `ifaces` names (the source uses a `set` it adds each
dict key to; keys of a dict are distinct, so the insertion-order list of
names represents it). -/
def confdBody : List (String × Interface) → Option (List String × List String)
  | [] => some ([], [])
  | (name, iface) :: rest => do
    let b ← confdBlock name iface
    let (ls, names) ← confdBody rest
    pure (b ++ ls, name :: names)

/-- Embedding of `_confd_net_file(interfaces)`: the joined text and the
interface-name set, or `none` when a netmask lookup raises `KeyError`. -/
def _confd_net_file (ipAvail : Bool) (time comm : String)
    (interfaces : List (String × Interface)) : Option (String × List String) :=
  (confdBody interfaces).map
    (fun p => (pyJoin "\n" (preambleLines ipAvail time comm ++ p.1), p.2))

/-- Legacy dialect IPv4 address line `  "address netmask <netmask>"`
(no table lookup, so it cannot fail). -/
def fmtIp4L (ip : Ip4) : String :=
  "  \"" ++ ip.address ++ " netmask " ++ ip.netmask ++ "\""

/-- Legacy dialect IPv6 address line `  "address/prefixlen"`. -/
def fmtIp6L (ip : Ip6) : String :=
  "  \"" ++ ip.address ++ "/" ++ ip.prefixlen ++ "\""

/-- Legacy dialect route line `  "network netmask <netmask> gw <gateway>"`. -/
def fmtRouteL (r : Route) : String :=
  "  \"" ++ r.network ++ " netmask " ++ r.netmask ++ " gw " ++ r.gateway ++ "\""

/-- The legacy `  "default via <gw>"` array entry for one optional
gateway field. -/
def defaultViaL (og : Option String) : List String :=
  match og with
  | some g => if g ≠ "" then ["  \"default via " ++ g ++ "\""] else []
  | none => []

/-- Legacy dialect `default via` lines (quoted, as array entries). -/
def gatewayLinesL (iface : Interface) : List String :=
  defaultViaL iface.gateway4 ++ defaultViaL iface.gateway6

/-- Legacy dialect DNS block: `dns_servers_<name>=(`, one quoted entry per
server, `)`, blank line; emitted only when the DNS sequence is non-empty. -/
def dnsLinesL (name : String) (iface : Interface) : List String :=
  if iface.dns ≠ [] then
    ["dns_servers_" ++ name ++ "=("]
      ++ iface.dns.map (fun d => " \"" ++ d ++ "\"")
      ++ [")", ""]
  else []

/-- The lines `_confd_net_file_legacy` emits for one interface. -/
def confdBlockL (name : String) (iface : Interface) : List String :=
  labelLines iface
    ++ [configOpenL name]
    ++ iface.ip4s.map fmtIp4L
    ++ iface.ip6s.map fmtIp6L
    ++ [")", ""]
    ++ [routesOpenL name]
    ++ (explicitRoutes iface).map fmtRouteL
    ++ gatewayLinesL iface
    ++ [")", ""]
    ++ dnsLinesL name iface

/-- The per-interface part of `_confd_net_file_legacy` (total: the legacy
dialect never consults the netmask table). -/
def confdBodyL : List (String × Interface) → List String × List String
  | [] => ([], [])
  | (name, iface) :: rest =>
    let p := confdBodyL rest
    (confdBlockL name iface ++ p.1, name :: p.2)

/-- Embedding of `_confd_net_file_legacy(interfaces)`. -/
def _confd_net_file_legacy (ipAvail : Bool) (time comm : String)
    (interfaces : List (String × Interface)) : String × List String :=
  (pyJoin "\n" (preambleLines ipAvail time comm ++ (confdBodyL interfaces).1),
   (confdBodyL interfaces).2)

/-- Embedding of `get_hostname_file(hostname)`: a comment line, the shared
header, and the unescaped `HOSTNAME="<hostname>"` line, newline-joined. -/
def get_hostname_file (hostname time comm : String) : String :=
  pyJoin "\n"
    ["# Set to the hostname of this machine",
     _header time comm,
     "HOSTNAME=\"" ++ hostname ++ "\""]

/-- Embedding of `get_interface_files(interfaces, version)`: the openrc
dialect exactly when `version == 'openrc'`, the legacy dialect otherwise,
wrapped as the single-entry dict `{'net': data}`. -/
def get_interface_files (ipAvail : Bool) (time comm : String)
    (interfaces : List (String × Interface)) (version : String) :
    Option (List (String × String)) :=
  (if version = "openrc" then
    _confd_net_file ipAvail time comm interfaces
  else
    some (_confd_net_file_legacy ipAvail time comm interfaces)).map
    (fun p => [("net", p.1)])

/-- Content of a line strictly before the last `"` character in it, or
`none` when the line has no `"` at all.  This is the greedy capture of
`(.*)"`: the regex's `.*` grabs as much as possible and backtracks to the
last closing quote. -/
def beforeLastQuote : List Char → Option (List Char)
  | [] => none
  | c :: rest =>
    match beforeLastQuote rest with
    | some cap => some (c :: cap)
    | none => if c = '"' then some [] else none

/-- Embedding of `re.search('HOSTNAME="(.*)"', line)` on the characters of
one line: scan left to right for an occurrence of the literal
`HOSTNAME="` whose remainder (up to the next newline, which `.` cannot
cross) still contains a closing `"`; the capture runs to the last such
quote. -/
def searchHN : List Char → Option (List Char)
  | [] => none
  | l@(_ :: rest) =>
    if ("HOSTNAME=\"").data.isPrefixOf l then
      match beforeLastQuote ((l.drop 10).takeWhile (fun c => c ≠ '\n')) with
      | some cap => some cap
      | none => searchHN rest
    else searchHN rest

/-- The captured hostname of one line of the hostname file, if the line
matches the pattern `HOSTNAME="(.*)"`. -/
def hostnameMatch (line : String) : Option String :=
  (searchHN line.data).map String.mk

/-- The loop of `get_hostname`: the capture of the first matching line. -/
def firstHostnameMatch : List String → Option String
  | [] => none
  | l :: rest =>
    match hostnameMatch l with
    | some h => some h
    | none => firstHostnameMatch rest

/-- Embedding of `get_hostname()`.  The input is the outcome of opening and
reading `/etc/conf.d/hostname`: `some lines` for a successful
`readlines()`, `none` when the `open`/read raises for any reason (missing
file, permissions, I/O) — the source's catch-all turns every such failure
into a logged `None`. -/
def get_hostname (file : Option (List String)) : Option String :=
  match file with
  | none => none
  | some lines => firstHostnameMatch lines

/-- Module-level constant `HOSTNAME_FILE`. -/
def HOSTNAME_FILE : String := "/etc/conf.d/hostname"

/-- Module-level constant `NETWORK_FILE`. -/
def NETWORK_FILE : String := "/etc/conf.d/net"

/-- Outcomes of every probe and subprocess `configure_network` performs,
fixed up front so the orchestrator itself is a pure function.
`flushStatus`/`restartStatus` are the `os.waitpid` statuses of the
`ip address flush` and init-script `restart` children; `sethostnameErr`
is `some msg` when `commands.network.sethostname` raises; `resolvConf`
and `etcHosts` are the path/data pairs produced by the external
`commands.network` collaborators (an empty `resolvConf` data string is
falsy and skipped, as in the source). -/
structure World where
  rcExists : Bool
  ipAvail : Bool
  flushStatus : String → Nat
  scriptExists : String → Bool
  restartStatus : String → Nat
  sethostnameErr : Option String
  resolvConf : String × String
  etcHosts : String × String

/-- One externally visible side effect of `configure_network`, in the
order performed: the batched file write, the hostname change, the
`ip address flush dev <ifname>` subprocess, the symlink creation, and the
init-script `restart` subprocess. -/
inductive Action where
  | writeFiles (files : List (String × String))
  | setHostnameCall (hostname : String)
  | flushCall (ifname : String)
  | symlinkCall (path target : String)
  | restartCall (ifname : String)
deriving DecidableEq, Repr

/-- The only exceptions the embedded `configure_network` can raise: the
`KeyError` escaping a netmask lookup during rendering, and the
`UnboundLocalError` from formatting the never-assigned local `status` in
the flush-failure branch. -/
inductive PyErr where
  | keyError
  | unboundLocalStatus
deriving DecidableEq, Repr

/-- Embedding of `_clean_assigned_ip(ifname)`: spawn
`ip address flush dev <ifname>` (the caller records the `flushCall`
action), wait, and return `False` exactly when the wait status is
non-zero.  Its local `status` variable is discarded. -/
def _clean_assigned_ip (w : World) (ifname : String) : Bool :=
  if w.flushStatus ifname ≠ 0 then false else true

/-- Python dict insertion `d[k] = v` on an association list: replace the
value of an existing key, otherwise append. -/
def dictInsert (k v : String) : List (String × String) → List (String × String)
  | [] => [(k, v)]
  | (k', v') :: rest =>
    if k' = k then (k, v) :: rest else (k', v') :: dictInsert k v rest

/-- The `update_files` dict assembled by `configure_network` before any
side effect: the rendered net file, the resolver file when its data is
truthy, the hostname file, and the hosts file. -/
def assembledFiles (w : World) (hostname data time comm : String) :
    List (String × String) :=
  let f1 := dictInsert NETWORK_FILE data []
  let f2 := if w.resolvConf.2 ≠ "" then
    dictInsert w.resolvConf.1 w.resolvConf.2 f1 else f1
  let f3 := dictInsert HOSTNAME_FILE (get_hostname_file hostname time comm) f2
  dictInsert w.etcHosts.1 w.etcHosts.2 f3

/-- The restart loop of `configure_network` over the interface names, with
the Python local variable `status` made explicit: it is unassigned
(`none`) until the first `os.waitpid` of a restart subprocess, yet the
flush-failure message interpolates it, so that branch either raises
`UnboundLocalError` or formats the stale status of an earlier restart. -/
def restartLoop (w : World) : List String → Option Nat →
    List Action × Except PyErr (Nat × String)
  | [], _ => ([], Except.ok (0, ""))
  | ifname :: rest, statusVar =>
    let flushActs : List Action :=
      if w.ipAvail then [Action.flushCall ifname] else []
    if w.ipAvail && !_clean_assigned_ip w ifname then
      match statusVar with
      | none => (flushActs, Except.error PyErr.unboundLocalStatus)
      | some s =>
        (flushActs,
         Except.ok (500, "Couldn't flush network " ++ ifname ++ ": " ++ toString s))
    else
      let symActs : List Action :=
        if w.scriptExists ifname then []
        else [Action.symlinkCall ("/etc/init.d/net." ++ ifname) "net.lo"]
      let st := w.restartStatus ifname
      if st ≠ 0 then
        (flushActs ++ symActs ++ [Action.restartCall ifname],
         Except.ok (500, "Couldn't restart network " ++ ifname ++ ": " ++ toString st))
      else
        let p := restartLoop w rest (some st)
        (flushActs ++ symActs ++ Action.restartCall ifname :: p.1, p.2)

/-- Embedding of `configure_network(hostname, interfaces)`: render the
files (dialect chosen by the `/sbin/rc` probe), write them as one batch,
set the hostname (any raise is caught and turned into a 500 result), then
run the restart loop.  The returned trace lists the side effects actually
performed, in order. -/
def configure_network (w : World) (hostname : String)
    (interfaces : List (String × Interface)) (time comm : String) :
    List Action × Except PyErr (Nat × String) :=
  match (if w.rcExists then
      _confd_net_file w.ipAvail time comm interfaces
    else
      some (_confd_net_file_legacy w.ipAvail time comm interfaces)) with
  | none => ([], Except.error PyErr.keyError)
  | some (data, ifaces) =>
    let files := assembledFiles w hostname data time comm
    match w.sethostnameErr with
    | some e =>
      ([Action.writeFiles files],
       Except.ok (500, "Couldn't set hostname: " ++ e))
    | none =>
      let p := restartLoop w ifaces none
      (Action.writeFiles files :: Action.setHostnameCall hostname :: p.1, p.2)

/-- The actions the restart loop performs for one interface on its success
path: the flush when `ip` is available, the symlink when the init script
is missing, and the restart. -/
def okActions (w : World) (ifname : String) : List Action :=
  (if w.ipAvail then [Action.flushCall ifname] else []) ++
    (if w.scriptExists ifname then []
     else [Action.symlinkCall ("/etc/init.d/net." ++ ifname) "net.lo"]) ++
    [Action.restartCall ifname]

/-- Recognizer for a `dns_servers_<name>` block opening: the line begins
with the characters of `dns_servers_<name>=` (both dialects open their DNS
block this way: `dns_servers_<name>="..."` and `dns_servers_<name>=(`). -/
def dnsOpen (name line : String) : Bool :=
  ("dns_servers_" ++ name ++ "=").data.isPrefixOf line.data

/-! Concrete fixtures used by counterexamples and witnesses. -/

/-- The interface of the spec's end-to-end example (section 8), with one
DNS server added so the DNS block is exercised. -/
def sampleIface : Interface :=
  { label := "", ip4s := [⟨"192.168.0.100", "255.255.255.0"⟩], ip6s := [],
    routes := [⟨"0.0.0.0", "0.0.0.0", "192.168.0.1"⟩],
    gateway4 := some "192.168.0.1", gateway6 := none, dns := ["8.8.8.8"] }

/-- A single-interface mapping using `sampleIface`. -/
def sampleCfg : List (String × Interface) := [("eth0", sampleIface)]

/-- The per-interface openrc lines rendered for `sampleCfg`. -/
def sampleBody : List String := ((confdBody sampleCfg).getD ([], [])).1

/-- A perfectly ordinary non-default route. -/
def cexRoute : Route := ⟨"10.0.0.0", "255.0.0.0", "1.2.3.4"⟩

/-- An interface that declares no `gateway4` key and carries `cexRoute`. -/
def cexIface : Interface :=
  { label := "", ip4s := [], ip6s := [], routes := [cexRoute],
    gateway4 := none, gateway6 := none, dns := [] }

/-- A world where every `ip address flush` child exits non-zero (wait
status 2) while everything else succeeds. -/
def flushFailWorld : World :=
  { rcExists := false, ipAvail := true, flushStatus := fun _ => 2,
    scriptExists := fun _ => true, restartStatus := fun _ => 0,
    sethostnameErr := none,
    resolvConf := ("/etc/resolv.conf", "nameserver 8.8.8.8"),
    etcHosts := ("/etc/hosts", "127.0.0.1 localhost") }

/-- A world where only the flush for `eth0` fails, so that `eth0` can be
reached after a successful restart of an earlier interface. -/
def staleFlushWorld : World :=
  { flushFailWorld with flushStatus := fun i => if i = "eth0" then 2 else 0 }

/-- A world where every flush succeeds and exactly the restart of `eth1`
exits non-zero (wait status 256, i.e. exit code 1). -/
def restartFailWorld : World :=
  { flushFailWorld with flushStatus := fun _ => 0,
                        restartStatus := fun i => if i = "eth1" then 256 else 0 }

/-- A three-interface mapping for exercising the restart short-circuit. -/
def cfg3 : List (String × Interface) :=
  [("eth0", sampleIface), ("eth1", sampleIface), ("eth2", sampleIface)]

/-- A two-interface mapping in which `eth0` comes second, so its flush
failure is reached with the loop's `status` variable already assigned. -/
def cfgStale : List (String × Interface) :=
  [("eth1", sampleIface), ("eth0", sampleIface)]

/-!  Helper lemmas (not claim theorems). -/

theorem string_ne_of_head (s t : String)
    (h : s.data.head? ≠ t.data.head?) : s ≠ t :=
  fun e => h (by rw [e])

theorem append_inj_mid (a c m n : String) :
    a ++ m ++ c = a ++ n ++ c ↔ m = n := by
  constructor
  · intro h
    have hd := congrArg String.data h
    simp only [String.data_append, List.append_assoc] at hd
    exact String.ext (List.append_cancel_right (List.append_cancel_left hd))
  · rintro rfl
    rfl

theorem count_eq_zero_of_ne (ls : List String) (p : String)
    (h : ∀ l ∈ ls, l ≠ p) : ls.count p = 0 :=
  List.count_eq_zero.mpr (fun hm => (h p hm) rfl)

theorem mapO_eq_some_of_isSome {α β : Type} (f : α → Option β) :
    ∀ xs : List α, (∀ x ∈ xs, (f x).isSome = true) →
      ∃ ys, mapO f xs = some ys := by
  intro xs
  induction xs with
  | nil => exact fun _ => ⟨[], rfl⟩
  | cons x rest ih =>
    intro h
    obtain ⟨y, hy⟩ := Option.isSome_iff_exists.mp (h x (List.mem_cons_self x rest))
    obtain ⟨ys, hys⟩ := ih (fun a ha => h a (List.mem_cons_of_mem x ha))
    exact ⟨y :: ys, by simp [mapO, hy, hys]⟩

theorem mapO_mem {α β : Type} (f : α → Option β) :
    ∀ (xs : List α) (ys : List β), mapO f xs = some ys →
      ∀ y ∈ ys, ∃ x ∈ xs, f x = some y := by
  intro xs
  induction xs with
  | nil =>
    intro ys h y hy
    simp [mapO] at h
    subst h
    simp at hy
  | cons x rest ih =>
    intro ys h y hy
    rw [mapO] at h
    cases hx : f x with
    | none => rw [hx] at h; simp at h
    | some b =>
      rw [hx] at h
      cases hr : mapO f rest with
      | none => rw [hr] at h; simp at h
      | some bs =>
        rw [hr] at h
        simp at h
        subst h
        rcases List.mem_cons.mp hy with rfl | hy'
        · exact ⟨x, List.mem_cons_self x rest, hx⟩
        · obtain ⟨a, ha, hfa⟩ := ih bs hr y hy'
          exact ⟨a, List.mem_cons_of_mem x ha, hfa⟩

/-! Claim theorems. -/

/-- Claim C1 counterexample: the claimed exclusion rule — a route is
excluded exactly when its network is `0.0.0.0` AND its netmask is
`0.0.0.0` AND a `gateway4` is declared AND the gateways match — is false
on the code.  `cexRoute` (`10.0.0.0` netmask `255.0.0.0` via `1.2.3.4`)
fails every one of those conjuncts on `cexIface` (which declares no
`gateway4`), yet the filter drops it and the rendered explicit route list
is empty. -/
theorem claim_C1_counterexample :
    ¬((routeIncluded cexIface cexRoute = false) ↔
        (cexRoute.network = "0.0.0.0" ∧ cexRoute.netmask = "0.0.0.0" ∧
         cexIface.gateway4.isSome = true ∧
         cexIface.gateway4 = some cexRoute.gateway)) ∧
      (explicitRoutes cexIface).map fmtRouteL = [] := by
  constructor
  · intro h
    have h1 : routeIncluded cexIface cexRoute = false := by decide
    have h2 := h.mp h1
    exact absurd h2.2.2.1 (by decide)
  · decide

/-- Claim C1 (amended): in both render dialects — the filter
`routeIncluded` is the one comprehension condition both `_confd_net_file`
and `_confd_net_file_legacy` apply to `interface['routes']` — a route is
excluded from the explicit per-route lines exactly when AT LEAST ONE of
the following holds: its network is `0.0.0.0`, its netmask is `0.0.0.0`,
the interface declares no `gateway4`, or the route's gateway equals the
declared `gateway4`; equivalently it is rendered exactly when all four
inclusion conditions hold together. -/
theorem claim_C1 (iface : Interface) (r : Route) :
    routeIncluded iface r = false ↔
      (r.network = "0.0.0.0" ∨ r.netmask = "0.0.0.0" ∨
       iface.gateway4 = none ∨ iface.gateway4 = some r.gateway) := by
  cases hg : iface.gateway4 with
  | none => simp [routeIncluded, hg]
  | some g =>
    simp only [routeIncluded, hg, Bool.and_eq_false_iff, decide_eq_false_iff_not, not_not,
      Option.some.injEq]
    constructor
    · intro h
      rcases h with (h | h) | h
      · exact Or.inl h
      · exact Or.inr (Or.inl h)
      · exact Or.inr (Or.inr (Or.inr h.symm))
    · intro h
      rcases h with h | h | h | h
      · exact Or.inl (Or.inl h)
      · exact Or.inl (Or.inr h)
      · exact absurd h (by simp)
      · exact Or.inr h.symm

/-- Claim C10: an interface descriptor without the `gateway4` key gets no
explicit per-route line at all, in either dialect: the filter removes
every route, so both the openrc (`mapO fmtRoute`) and legacy
(`map fmtRouteL`) explicit route renderings are empty. -/
theorem claim_C10 (iface : Interface) (h : iface.gateway4 = none) :
    explicitRoutes iface = [] ∧
      mapO fmtRoute (explicitRoutes iface) = some [] ∧
      (explicitRoutes iface).map fmtRouteL = [] := by
  have he : explicitRoutes iface = [] := by
    apply List.filter_eq_nil_iff.mpr
    intro r _
    simp [routeIncluded, h]
  exact ⟨he, by rw [he]; rfl, by rw [he]; rfl⟩

/-- Claim C10 witness: `cexIface` declares no `gateway4` and indeed
renders no explicit route, though it has a route. -/
theorem claim_C10_witness :
    explicitRoutes cexIface = [] ∧
      mapO fmtRoute (explicitRoutes cexIface) = some [] ∧
      (explicitRoutes cexIface).map fmtRouteL = [] :=
  claim_C10 cexIface rfl

/-- Claim C7: `get_interface_files` renders with `_confd_net_file`
exactly when `version = "openrc"` and with `_confd_net_file_legacy` for
every other version string, wrapping the text as the one-entry dict
`net ↦ data`. -/
theorem claim_C7 (ipAvail : Bool) (time comm : String)
    (interfaces : List (String × Interface)) (version : String) :
    (version = "openrc" →
      get_interface_files ipAvail time comm interfaces version =
        (_confd_net_file ipAvail time comm interfaces).map
          (fun p => [("net", p.1)])) ∧
    (version ≠ "openrc" →
      get_interface_files ipAvail time comm interfaces version =
        some [("net", (_confd_net_file_legacy ipAvail time comm interfaces).1)]) := by
  constructor
  · intro h
    simp [get_interface_files, h]
  · intro h
    simp [get_interface_files, h]

/-- Claim C7 witness: both branches at concrete inputs: version
`"openrc"` selects the openrc dialect, version `"baselayout"` the legacy
dialect. -/
theorem claim_C7_witness :
    get_interface_files true "T" "C" sampleCfg "openrc" =
      (_confd_net_file true "T" "C" sampleCfg).map (fun p => [("net", p.1)]) ∧
    get_interface_files true "T" "C" sampleCfg "baselayout" =
      some [("net", (_confd_net_file_legacy true "T" "C" sampleCfg).1)] :=
  ⟨(claim_C7 true "T" "C" sampleCfg "openrc").1 rfl,
   (claim_C7 true "T" "C" sampleCfg "baselayout").2 (by decide)⟩

/-- Claim C9: for every hostname (and every header timestamp and program
name), the text of `get_hostname_file` contains the literal substring
`HOSTNAME="<hostname>"` — it is in fact its suffix. -/
theorem claim_C9 (hostname time comm : String) :
    ("HOSTNAME=\"" ++ hostname ++ "\"").data <:+:
      (get_hostname_file hostname time comm).data := by
  refine ⟨("# Set to the hostname of this machine" ++ "\n" ++
    (_header time comm ++ "\n")).data, [], ?_⟩
  simp [get_hostname_file, pyJoin, String.data_append, List.append_assoc]

/-- Claim C8: `get_hostname` returns the capture of the first line
matching `HOSTNAME="(.*)"` when one exists, and `None` both when no line
matches and when the file cannot be opened or read at all (every read
failure is collapsed into the `none` input of the embedding, with nothing
else reported to the caller). -/
theorem claim_C8 :
    get_hostname none = none ∧
    (∀ ls : List String, (∀ l ∈ ls, hostnameMatch l = none) →
      get_hostname (some ls) = none) ∧
    (∀ (pre : List String) (line : String) (post : List String) (v : String),
      (∀ l ∈ pre, hostnameMatch l = none) → hostnameMatch line = some v →
      get_hostname (some (pre ++ line :: post)) = some v) := by
  refine ⟨rfl, ?_, ?_⟩
  · intro ls h
    induction ls with
    | nil => rfl
    | cons l rest ih =>
      have h1 : hostnameMatch l = none := h l (List.mem_cons_self l rest)
      have h2 := ih (fun a ha => h a (List.mem_cons_of_mem l ha))
      simp only [get_hostname, firstHostnameMatch, h1] at h2 ⊢
      exact h2
  · intro pre line post v hpre hline
    induction pre with
    | nil => simp [get_hostname, firstHostnameMatch, hline]
    | cons l rest ih =>
      have h1 : hostnameMatch l = none := hpre l (List.mem_cons_self l rest)
      have h2 := ih (fun a ha => hpre a (List.mem_cons_of_mem l ha))
      simp only [get_hostname, List.cons_append, firstHostnameMatch, h1] at h2 ⊢
      exact h2

/-- Claim C8 witness: on a file whose second line is
`HOSTNAME="gentoo"`, preceded by a comment and followed by another
matching line, the first match's capture `gentoo` is returned. -/
theorem claim_C8_witness :
    get_hostname (some (["# Gentoo hostname config"] ++
      "HOSTNAME=\"gentoo\"" :: ["HOSTNAME=\"other\""])) = some "gentoo" :=
  claim_C8.2.2 ["# Gentoo hostname config"] "HOSTNAME=\"gentoo\""
    ["HOSTNAME=\"other\""] "gentoo" (by decide) (by decide)

/-- Claim C2 (code bug): with the `ip` command available and the flush
for `eth0` exiting non-zero, `configure_network` does NOT return
`(500, "Couldn't flush network eth0: 2")`: the message formats the local
variable `status`, which at that point has never been assigned (the flush
status is local to `_clean_assigned_ip` and discarded), so the call
raises `UnboundLocalError` when `eth0` is the first interface — and when
an earlier interface already restarted successfully, the stale restart
status `0` is interpolated instead of the flush status.  The restart
step for `eth0` is indeed never reached. -/
theorem claim_C2 :
    (configure_network flushFailWorld "h" sampleCfg "T" "C").2 =
      Except.error PyErr.unboundLocalStatus ∧
    (configure_network flushFailWorld "h" sampleCfg "T" "C").2 ≠
      Except.ok (500, "Couldn't flush network eth0: 2") ∧
    Action.restartCall "eth0" ∉
      (configure_network flushFailWorld "h" sampleCfg "T" "C").1 ∧
    (configure_network staleFlushWorld "h" cfgStale "T" "C").2 =
      Except.ok (500, "Couldn't flush network eth0: 0") := by
  have h0 : (configure_network flushFailWorld "h" sampleCfg "T" "C").2 =
      Except.error PyErr.unboundLocalStatus := rfl
  refine ⟨h0, ?_, by decide, rfl⟩
  rw [h0]
  intro h
  exact Except.noConfusion h

theorem confdBodyL_names (ifs : List (String × Interface)) :
    (confdBodyL ifs).2 = ifs.map Prod.fst := by
  induction ifs with
  | nil => rfl
  | cons p rest ih =>
    cases p
    simp [confdBodyL, ih]

theorem confdBlock_eq_some (name : String) (iface : Interface)
    (h4 : ∀ ip ∈ iface.ip4s, (NETMASK_TO_PREFIXLEN ip.netmask).isSome = true)
    (hr : ∀ r ∈ iface.routes, (NETMASK_TO_PREFIXLEN r.netmask).isSome = true) :
    ∃ b, confdBlock name iface = some b := by
  obtain ⟨ys, hys⟩ := mapO_eq_some_of_isSome fmtIp4 iface.ip4s
    (fun ip hip => by simpa [fmtIp4] using h4 ip hip)
  obtain ⟨rs, hrs⟩ := mapO_eq_some_of_isSome fmtRoute (explicitRoutes iface)
    (fun r hrr => by
      simpa [fmtRoute] using hr r (List.mem_of_mem_filter hrr))
  refine ⟨blockShape name iface ys rs, ?_⟩
  simp [confdBlock, hys, hrs]

theorem confdBody_eq_some (ifs : List (String × Interface))
    (hvalid : ∀ p ∈ ifs,
      (∀ ip ∈ (Prod.snd p).ip4s, (NETMASK_TO_PREFIXLEN ip.netmask).isSome = true) ∧
      (∀ r ∈ (Prod.snd p).routes, (NETMASK_TO_PREFIXLEN r.netmask).isSome = true)) :
    ∃ b, confdBody ifs = some (b, ifs.map Prod.fst) := by
  induction ifs with
  | nil => exact ⟨[], rfl⟩
  | cons p rest ih =>
    obtain ⟨name, iface⟩ := p
    have hp := hvalid (name, iface) (List.mem_cons_self _ _)
    obtain ⟨b, hb⟩ := confdBlock_eq_some name iface hp.1 hp.2
    obtain ⟨bs, hbs⟩ := ih (fun q hq => hvalid q (List.mem_cons_of_mem _ hq))
    exact ⟨b ++ bs, by simp [confdBody, hb, hbs]⟩

/-- Claim C3: when every IPv4 address netmask and every route netmask of
every interface has an entry in `NETMASK_TO_PREFIXLEN`, both render
dialects succeed and return exactly the input's interface names (the
openrc dialect, which is the only one consulting the table, returns
`some`; the legacy dialect is total).  The name list is the key list of
the mapping in iteration order, hence equal as a set to the key set. -/
theorem claim_C3 (ipAvail : Bool) (time comm : String)
    (ifs : List (String × Interface))
    (hvalid : ∀ p ∈ ifs,
      (∀ ip ∈ (Prod.snd p).ip4s, (NETMASK_TO_PREFIXLEN ip.netmask).isSome = true) ∧
      (∀ r ∈ (Prod.snd p).routes, (NETMASK_TO_PREFIXLEN r.netmask).isSome = true)) :
    (∃ text, _confd_net_file ipAvail time comm ifs =
      some (text, ifs.map Prod.fst)) ∧
    (_confd_net_file_legacy ipAvail time comm ifs).2 = ifs.map Prod.fst := by
  constructor
  · obtain ⟨b, hb⟩ := confdBody_eq_some ifs hvalid
    exact ⟨pyJoin "\n" (preambleLines ipAvail time comm ++ b),
      by simp [_confd_net_file, hb]⟩
  · exact confdBodyL_names ifs

/-- Claim C3 witness: on the spec's example interface both dialects
return the name list `["eth0"]`. -/
theorem claim_C3_witness :
    (∃ text, _confd_net_file true "T" "C" sampleCfg = some (text, ["eth0"])) ∧
    (_confd_net_file_legacy true "T" "C" sampleCfg).2 = ["eth0"] :=
  claim_C3 true "T" "C" sampleCfg (by decide)

theorem ne_of_heads (s t : String) (c d : Char) (hs : s.data.head? = some c)
    (ht : t.data.head? = some d) (hne : c ≠ d) : s ≠ t :=
  string_ne_of_head s t (by rw [hs, ht]; exact fun e => hne (Option.some.inj e))

theorem pattern_ne_empty (p : String) (d : Char)
    (hp : p.data.head? = some d) : p ≠ "" :=
  fun e => Option.noConfusion (e ▸ hp : ("" : String).data.head? = some d)

theorem count_zero_of_head (ls : List String) (p : String) (c d : Char)
    (hcd : c ≠ d) (hp : p.data.head? = some d)
    (h : ∀ l ∈ ls, l.data.head? = some c) : ls.count p = 0 :=
  count_eq_zero_of_ne ls p (fun l hl => ne_of_heads l p c d (h l hl) hp hcd)

theorem count_one_ne (a p : String) (h : p ≠ a) : ([a]).count p = 0 := by
  rw [List.count_eq_zero]
  simp [h]

theorem count_one_self (a : String) : ([a]).count a = 1 := by simp

theorem count_pair_ne (a b p : String) (h1 : p ≠ a) (h2 : p ≠ b) :
    ([a, b]).count p = 0 := by
  rw [List.count_eq_zero]
  simp [h1, h2]

theorem labelLines_head (iface : Interface) :
    ∀ l ∈ labelLines iface, l.data.head? = some '#' := by
  intro l hl
  by_cases h : iface.label = ""
  · simp [labelLines, h] at hl
  · simp [labelLines, h] at hl
    subst hl
    rfl

theorem mapO_fmtIp4_head (xs : List Ip4) (ys : List String)
    (h : mapO fmtIp4 xs = some ys) : ∀ l ∈ ys, l.data.head? = some ' ' := by
  intro l hl
  obtain ⟨x, _, hx⟩ := mapO_mem fmtIp4 xs ys h l hl
  unfold fmtIp4 at hx
  obtain ⟨p, _, hfp⟩ := Option.map_eq_some'.mp hx
  rw [← hfp]
  rfl

theorem mapO_fmtRoute_head (xs : List Route) (ys : List String)
    (h : mapO fmtRoute xs = some ys) : ∀ l ∈ ys, l.data.head? = some ' ' := by
  intro l hl
  obtain ⟨x, _, hx⟩ := mapO_mem fmtRoute xs ys h l hl
  unfold fmtRoute at hx
  obtain ⟨p, _, hfp⟩ := Option.map_eq_some'.mp hx
  rw [← hfp]
  rfl

theorem map_fmtIp6_head (xs : List Ip6) :
    ∀ l ∈ xs.map fmtIp6, l.data.head? = some ' ' := by
  intro l hl
  obtain ⟨x, _, rfl⟩ := List.mem_map.mp hl
  rfl

theorem defaultVia_head (og : Option String) :
    ∀ l ∈ defaultVia og, l.data.head? = some ' ' := by
  intro l hl
  cases og with
  | none => simp [defaultVia] at hl
  | some g =>
    by_cases h : g = ""
    · simp [defaultVia, h] at hl
    · simp [defaultVia, h] at hl
      subst hl
      rfl

theorem gatewayLines_head (iface : Interface) :
    ∀ l ∈ gatewayLines iface, l.data.head? = some ' ' := by
  intro l hl
  rcases List.mem_append.mp hl with h | h
  exacts [defaultVia_head _ l h, defaultVia_head _ l h]

theorem count_dnsLines_zero (name : String) (iface : Interface) (p : String)
    (d : Char) (hp : p.data.head? = some d) (hd : d ≠ 'd') :
    (dnsLines name iface).count p = 0 := by
  apply count_eq_zero_of_ne
  intro l hl
  by_cases h : iface.dns = []
  · simp [dnsLines, h] at hl
  · simp [dnsLines, h] at hl
    rcases hl with rfl | rfl
    · exact ne_of_heads _ _ 'd' d rfl hp (Ne.symm hd)
    · exact Ne.symm (pattern_ne_empty p d hp)

theorem map_fmtIp4L_head (xs : List Ip4) :
    ∀ l ∈ xs.map fmtIp4L, l.data.head? = some ' ' := by
  intro l hl
  obtain ⟨x, _, rfl⟩ := List.mem_map.mp hl
  rfl

theorem map_fmtIp6L_head (xs : List Ip6) :
    ∀ l ∈ xs.map fmtIp6L, l.data.head? = some ' ' := by
  intro l hl
  obtain ⟨x, _, rfl⟩ := List.mem_map.mp hl
  rfl

theorem map_fmtRouteL_head (xs : List Route) :
    ∀ l ∈ xs.map fmtRouteL, l.data.head? = some ' ' := by
  intro l hl
  obtain ⟨x, _, rfl⟩ := List.mem_map.mp hl
  rfl

theorem defaultViaL_head (og : Option String) :
    ∀ l ∈ defaultViaL og, l.data.head? = some ' ' := by
  intro l hl
  cases og with
  | none => simp [defaultViaL] at hl
  | some g =>
    by_cases h : g = ""
    · simp [defaultViaL, h] at hl
    · simp [defaultViaL, h] at hl
      subst hl
      rfl

theorem gatewayLinesL_head (iface : Interface) :
    ∀ l ∈ gatewayLinesL iface, l.data.head? = some ' ' := by
  intro l hl
  rcases List.mem_append.mp hl with h | h
  exacts [defaultViaL_head _ l h, defaultViaL_head _ l h]

theorem count_dnsLinesL_zero (name : String) (iface : Interface) (p : String)
    (d : Char) (hp : p.data.head? = some d)
    (h1 : d ≠ 'd') (h2 : d ≠ ' ') (h3 : d ≠ ')') :
    (dnsLinesL name iface).count p = 0 := by
  apply count_eq_zero_of_ne
  intro l hl
  by_cases h : iface.dns = []
  · simp [dnsLinesL, h] at hl
  · simp [dnsLinesL, h] at hl
    rcases hl with rfl | ⟨x, _, rfl⟩ | rfl | rfl
    · exact ne_of_heads _ _ 'd' d rfl hp (Ne.symm h1)
    · exact ne_of_heads _ _ ' ' d rfl hp (Ne.symm h2)
    · exact ne_of_heads _ _ ')' d rfl hp (Ne.symm h3)
    · exact Ne.symm (pattern_ne_empty p d hp)

theorem confdBlock_inv (name : String) (iface : Interface) (b : List String)
    (hb : confdBlock name iface = some b) :
    ∃ ip4L routeL, mapO fmtIp4 iface.ip4s = some ip4L ∧
      mapO fmtRoute (explicitRoutes iface) = some routeL ∧
      b = blockShape name iface ip4L routeL := by
  rcases h1 : mapO fmtIp4 iface.ip4s with _ | ip4L
  · unfold confdBlock at hb
    rw [h1] at hb
    simp at hb
  rcases h2 : mapO fmtRoute (explicitRoutes iface) with _ | routeL
  · unfold confdBlock at hb
    simp only [h1, h2] at hb
    simp at hb
  unfold confdBlock at hb
  simp only [h1, h2] at hb
  simp at hb
  exact ⟨ip4L, routeL, rfl, rfl, hb.symm⟩

theorem blockShape_count (name : String) (iface : Interface)
    (ip4L routeL : List String)
    (h4 : ∀ l ∈ ip4L, l.data.head? = some ' ')
    (hrl : ∀ l ∈ routeL, l.data.head? = some ' ')
    (p : String) (d : Char) (hp : p.data.head? = some d)
    (hd1 : d ≠ '#') (hd2 : d ≠ ' ') (hd3 : d ≠ '"') (hd4 : d ≠ 'd') :
    (blockShape name iface ip4L routeL).count p =
      ([configOpen name]).count p + ([routesOpen name]).count p := by
  unfold blockShape
  simp only [List.count_append]
  rw [count_zero_of_head (labelLines iface) p '#' d (Ne.symm hd1) hp
      (labelLines_head iface),
    count_zero_of_head ip4L p ' ' d (Ne.symm hd2) hp h4,
    count_zero_of_head (iface.ip6s.map fmtIp6) p ' ' d (Ne.symm hd2) hp
      (map_fmtIp6_head iface.ip6s),
    count_zero_of_head routeL p ' ' d (Ne.symm hd2) hp hrl,
    count_zero_of_head (gatewayLines iface) p ' ' d (Ne.symm hd2) hp
      (gatewayLines_head iface),
    count_pair_ne "\"" "" p (ne_of_heads p "\"" d '"' hp rfl hd3)
      (pattern_ne_empty p d hp),
    count_dnsLines_zero name iface p d hp hd4]
  omega

theorem blockShape_count_config (name m : String) (iface : Interface)
    (ip4L routeL : List String)
    (h4 : ∀ l ∈ ip4L, l.data.head? = some ' ')
    (hrl : ∀ l ∈ routeL, l.data.head? = some ' ') :
    (blockShape name iface ip4L routeL).count (configOpen m) =
      if m = name then 1 else 0 := by
  rw [blockShape_count name iface ip4L routeL h4 hrl (configOpen m) 'c' rfl
    (by decide) (by decide) (by decide) (by decide)]
  have hro : ([routesOpen name]).count (configOpen m) = 0 :=
    count_one_ne _ _ (ne_of_heads _ _ 'c' 'r' rfl rfl (by decide))
  by_cases hmn : m = name
  · subst hmn
    rw [count_one_self, hro]
    simp
  · rw [count_one_ne (configOpen name) (configOpen m)
      (show configOpen m ≠ configOpen name from
        fun e => hmn ((append_inj_mid "config_" "=\"" m name).mp e)), hro]
    simp [hmn]

theorem blockShape_count_routes (name m : String) (iface : Interface)
    (ip4L routeL : List String)
    (h4 : ∀ l ∈ ip4L, l.data.head? = some ' ')
    (hrl : ∀ l ∈ routeL, l.data.head? = some ' ') :
    (blockShape name iface ip4L routeL).count (routesOpen m) =
      if m = name then 1 else 0 := by
  rw [blockShape_count name iface ip4L routeL h4 hrl (routesOpen m) 'r' rfl
    (by decide) (by decide) (by decide) (by decide)]
  have hco : ([configOpen name]).count (routesOpen m) = 0 :=
    count_one_ne _ _ (ne_of_heads _ _ 'r' 'c' rfl rfl (by decide))
  by_cases hmn : m = name
  · subst hmn
    rw [count_one_self, hco]
    simp
  · rw [count_one_ne (routesOpen name) (routesOpen m)
      (show routesOpen m ≠ routesOpen name from
        fun e => hmn ((append_inj_mid "routes_" "=\"" m name).mp e)), hco]
    simp [hmn]

theorem confdBlockL_count (name : String) (iface : Interface)
    (p : String) (d : Char) (hp : p.data.head? = some d)
    (hd1 : d ≠ '#') (hd2 : d ≠ ' ') (hd3 : d ≠ ')') (hd4 : d ≠ 'd') :
    (confdBlockL name iface).count p =
      ([configOpenL name]).count p + ([routesOpenL name]).count p := by
  unfold confdBlockL
  simp only [List.count_append]
  rw [count_zero_of_head (labelLines iface) p '#' d (Ne.symm hd1) hp
      (labelLines_head iface),
    count_zero_of_head (iface.ip4s.map fmtIp4L) p ' ' d (Ne.symm hd2) hp
      (map_fmtIp4L_head iface.ip4s),
    count_zero_of_head (iface.ip6s.map fmtIp6L) p ' ' d (Ne.symm hd2) hp
      (map_fmtIp6L_head iface.ip6s),
    count_zero_of_head ((explicitRoutes iface).map fmtRouteL) p ' ' d
      (Ne.symm hd2) hp (map_fmtRouteL_head (explicitRoutes iface)),
    count_zero_of_head (gatewayLinesL iface) p ' ' d (Ne.symm hd2) hp
      (gatewayLinesL_head iface),
    count_pair_ne ")" "" p (ne_of_heads p ")" d ')' hp rfl hd3)
      (pattern_ne_empty p d hp),
    count_dnsLinesL_zero name iface p d hp hd4 hd2 hd3]
  omega

theorem confdBlockL_count_config (name m : String) (iface : Interface) :
    (confdBlockL name iface).count (configOpenL m) =
      if m = name then 1 else 0 := by
  rw [confdBlockL_count name iface (configOpenL m) 'c' rfl
    (by decide) (by decide) (by decide) (by decide)]
  have hro : ([routesOpenL name]).count (configOpenL m) = 0 :=
    count_one_ne _ _ (ne_of_heads _ _ 'c' 'r' rfl rfl (by decide))
  by_cases hmn : m = name
  · subst hmn
    rw [count_one_self, hro]
    simp
  · rw [count_one_ne (configOpenL name) (configOpenL m)
      (show configOpenL m ≠ configOpenL name from
        fun e => hmn ((append_inj_mid "config_" "=(" m name).mp e)), hro]
    simp [hmn]

theorem confdBlockL_count_routes (name m : String) (iface : Interface) :
    (confdBlockL name iface).count (routesOpenL m) =
      if m = name then 1 else 0 := by
  rw [confdBlockL_count name iface (routesOpenL m) 'r' rfl
    (by decide) (by decide) (by decide) (by decide)]
  have hco : ([configOpenL name]).count (routesOpenL m) = 0 :=
    count_one_ne _ _ (ne_of_heads _ _ 'r' 'c' rfl rfl (by decide))
  by_cases hmn : m = name
  · subst hmn
    rw [count_one_self, hco]
    simp
  · rw [count_one_ne (routesOpenL name) (routesOpenL m)
      (show routesOpenL m ≠ routesOpenL name from
        fun e => hmn ((append_inj_mid "routes_" "=(" m name).mp e)), hco]
    simp [hmn]

theorem confdBody_count (ifs : List (String × Interface)) :
    ∀ b names, confdBody ifs = some (b, names) → ∀ m : String,
      b.count (configOpen m) = (ifs.map Prod.fst).count m ∧
      b.count (routesOpen m) = (ifs.map Prod.fst).count m := by
  induction ifs with
  | nil =>
    intro b names h m
    simp [confdBody] at h
    rcases h with ⟨rfl, rfl⟩
    simp
  | cons q rest ih =>
    obtain ⟨name, iface⟩ := q
    intro b names h m
    rcases h1 : confdBlock name iface with _ | bi
    · unfold confdBody at h
      rw [h1] at h
      simp at h
    rcases h2 : confdBody rest with _ | pr
    · unfold confdBody at h
      simp only [h1, h2] at h
      simp at h
    obtain ⟨brest, nrest⟩ := pr
    unfold confdBody at h
    simp only [h1, h2] at h
    simp at h
    obtain ⟨hb, hn⟩ := h
    subst hb
    obtain ⟨ip4L, routeL, hi4, hirt, rfl⟩ := confdBlock_inv name iface bi h1
    have ihm := ih brest nrest h2 m
    have hc := blockShape_count_config name m iface ip4L routeL
      (mapO_fmtIp4_head _ _ hi4) (mapO_fmtRoute_head _ _ hirt)
    have hr := blockShape_count_routes name m iface ip4L routeL
      (mapO_fmtIp4_head _ _ hi4) (mapO_fmtRoute_head _ _ hirt)
    constructor
    · rw [List.count_append, hc, ihm.1]
      simp only [List.map_cons, List.count_cons, beq_iff_eq]
      by_cases hmn : m = name
      · simp [hmn]
        omega
      · simp [hmn]
        exact fun e => hmn e.symm
    · rw [List.count_append, hr, ihm.2]
      simp only [List.map_cons, List.count_cons, beq_iff_eq]
      by_cases hmn : m = name
      · simp [hmn]
        omega
      · simp [hmn]
        exact fun e => hmn e.symm

theorem confdBodyL_count (ifs : List (String × Interface)) (m : String) :
    ((confdBodyL ifs).1).count (configOpenL m) = (ifs.map Prod.fst).count m ∧
    ((confdBodyL ifs).1).count (routesOpenL m) = (ifs.map Prod.fst).count m := by
  induction ifs with
  | nil => simp [confdBodyL]
  | cons q rest ih =>
    obtain ⟨name, iface⟩ := q
    have hunf : (confdBodyL ((name, iface) :: rest)).1 =
        confdBlockL name iface ++ (confdBodyL rest).1 := rfl
    rw [hunf]
    constructor
    · rw [List.count_append, confdBlockL_count_config name m iface, ih.1]
      simp only [List.map_cons, List.count_cons, beq_iff_eq]
      by_cases hmn : m = name
      · simp [hmn]
        omega
      · simp [hmn]
        exact fun e => hmn e.symm
    · rw [List.count_append, confdBlockL_count_routes name m iface, ih.2]
      simp only [List.map_cons, List.count_cons, beq_iff_eq]
      by_cases hmn : m = name
      · simp [hmn]
        omega
      · simp [hmn]
        exact fun e => hmn e.symm

theorem preambleLines_count_zero (ipAvail : Bool) (time comm : String)
    (p : String) (d : Char) (hp : p.data.head? = some d)
    (h1 : d ≠ '#') (h2 : d ≠ 'm') :
    (preambleLines ipAvail time comm).count p = 0 := by
  apply count_eq_zero_of_ne
  intro l hl
  cases ipAvail with
  | false =>
    simp [preambleLines] at hl
    rcases hl with rfl | rfl | rfl | rfl
    · exact ne_of_heads _ _ '#' d rfl hp (Ne.symm h1)
    · exact Ne.symm (pattern_ne_empty p d hp)
    · exact ne_of_heads _ _ 'm' d rfl hp (Ne.symm h2)
    · exact Ne.symm (pattern_ne_empty p d hp)
  | true =>
    simp [preambleLines] at hl
    rcases hl with rfl | rfl | rfl | rfl
    · exact ne_of_heads _ _ '#' d rfl hp (Ne.symm h1)
    · exact Ne.symm (pattern_ne_empty p d hp)
    · exact ne_of_heads _ _ 'm' d rfl hp (Ne.symm h2)
    · exact Ne.symm (pattern_ne_empty p d hp)

/-- Claim C4: for a mapping with distinct interface names whose render
succeeds, the rendered lines of each dialect contain exactly one
`config_<name>` block opening and exactly one `routes_<name>` block
opening per interface name (the openrc text is `pyJoin "\n"` of
`preambleLines ++ b`; openings are whole lines, so line counts are block
counts). -/
theorem claim_C4 (ipAvail : Bool) (time comm : String)
    (ifs : List (String × Interface)) (b : List String) (names : List String)
    (hb : confdBody ifs = some (b, names))
    (hnd : (ifs.map Prod.fst).Nodup) (m : String)
    (hm : m ∈ ifs.map Prod.fst) :
    ((preambleLines ipAvail time comm ++ b).count (configOpen m) = 1 ∧
     (preambleLines ipAvail time comm ++ b).count (routesOpen m) = 1) ∧
    ((preambleLines ipAvail time comm ++ (confdBodyL ifs).1).count
        (configOpenL m) = 1 ∧
     (preambleLines ipAvail time comm ++ (confdBodyL ifs).1).count
        (routesOpenL m) = 1) := by
  have hkey : (ifs.map Prod.fst).count m = 1 := List.count_eq_one_of_mem hnd hm
  have hcb := confdBody_count ifs b names hb m
  have hcl := confdBodyL_count ifs m
  refine ⟨⟨?_, ?_⟩, ?_, ?_⟩
  · rw [List.count_append,
      preambleLines_count_zero ipAvail time comm (configOpen m) 'c' rfl
        (by decide) (by decide),
      hcb.1, hkey]
  · rw [List.count_append,
      preambleLines_count_zero ipAvail time comm (routesOpen m) 'r' rfl
        (by decide) (by decide),
      hcb.2, hkey]
  · rw [List.count_append,
      preambleLines_count_zero ipAvail time comm (configOpenL m) 'c' rfl
        (by decide) (by decide),
      hcl.1, hkey]
  · rw [List.count_append,
      preambleLines_count_zero ipAvail time comm (routesOpenL m) 'r' rfl
        (by decide) (by decide),
      hcl.2, hkey]

/-- Claim C4 witness: on the one-interface example `sampleCfg`, both
dialects contain exactly one `config_eth0` and one `routes_eth0`
opening. -/
theorem claim_C4_witness :
    ((preambleLines true "T" "C" ++ sampleBody).count (configOpen "eth0") = 1 ∧
     (preambleLines true "T" "C" ++ sampleBody).count (routesOpen "eth0") = 1) ∧
    ((preambleLines true "T" "C" ++ (confdBodyL sampleCfg).1).count
        (configOpenL "eth0") = 1 ∧
     (preambleLines true "T" "C" ++ (confdBodyL sampleCfg).1).count
        (routesOpenL "eth0") = 1) :=
  claim_C4 true "T" "C" sampleCfg sampleBody ["eth0"] rfl (by decide)
    "eth0" (by decide)

theorem dnsOpen_false_of_head (n l : String) (c : Char)
    (hl : l.data.head? = some c) (hc : c ≠ 'd') : dnsOpen n l = false := by
  cases hb : dnsOpen n l with
  | false => rfl
  | true =>
    exfalso
    unfold dnsOpen at hb
    rw [List.isPrefixOf_iff_prefix] at hb
    obtain ⟨t, ht⟩ := hb
    rw [← ht] at hl
    have h0 : (("dns_servers_" ++ n ++ "=").data ++ t).head? = some 'd' := rfl
    rw [h0] at hl
    exact hc (Option.some.inj hl).symm

theorem dnsOpen_empty (n : String) : dnsOpen n "" = false := rfl

theorem eqmark_prefix_inj : ∀ (xs ys t u : List Char), '=' ∉ xs → '=' ∉ ys →
    (xs ++ '=' :: t) <+: (ys ++ '=' :: u) → xs = ys := by
  intro xs
  induction xs with
  | nil =>
    intro ys t u _ hy h
    cases ys with
    | nil => rfl
    | cons y ys' =>
      exfalso
      rw [List.nil_append] at h
      have h1 := (List.cons_prefix_cons.mp h).1
      exact hy (List.mem_cons.mpr (Or.inl h1))
  | cons x xs' ih =>
    intro ys t u hx hy h
    cases ys with
    | nil =>
      exfalso
      rw [List.nil_append] at h
      have h1 := (List.cons_prefix_cons.mp h).1
      exact hx (List.mem_cons.mpr (Or.inl h1.symm))
    | cons y ys' =>
      obtain ⟨h1, h2⟩ := List.cons_prefix_cons.mp h
      subst h1
      rw [ih ys' t u (fun hm => hx (List.mem_cons_of_mem x hm))
        (fun hm => hy (List.mem_cons_of_mem x hm)) h2]

theorem dnsOpen_elem_self (n body : String) :
    dnsOpen n ("dns_servers_" ++ n ++ "=\"" ++ body ++ "\"\n") = true := by
  unfold dnsOpen
  rw [List.isPrefixOf_iff_prefix]
  refine ⟨'"' :: (body.data ++ ['"', '\n']), ?_⟩
  show (("dns_servers_".data ++ n.data) ++ ['=']) ++ ('"' :: (body.data ++ ['"', '\n'])) =
    ((("dns_servers_".data ++ n.data) ++ ['=', '"']) ++ body.data) ++ ['"', '\n']
  simp [List.append_assoc]

theorem dnsOpen_elem_selfL (n : String) :
    dnsOpen n ("dns_servers_" ++ n ++ "=(") = true := by
  unfold dnsOpen
  rw [List.isPrefixOf_iff_prefix]
  refine ⟨['('], ?_⟩
  show (("dns_servers_".data ++ n.data) ++ ['=']) ++ ['('] =
    ("dns_servers_".data ++ n.data) ++ ['=', '(']
  simp [List.append_assoc]

theorem dnsOpen_elem (n nb body : String) (hn : '=' ∉ n.data)
    (hnb : '=' ∉ nb.data) :
    dnsOpen n ("dns_servers_" ++ nb ++ "=\"" ++ body ++ "\"\n") = true ↔ n = nb := by
  constructor
  · intro h
    unfold dnsOpen at h
    rw [List.isPrefixOf_iff_prefix] at h
    have e1 : ("dns_servers_" ++ n ++ "=").data =
        "dns_servers_".data ++ (n.data ++ ['=']) :=
      List.append_assoc "dns_servers_".data n.data ['=']
    have e2 : ("dns_servers_" ++ nb ++ "=\"" ++ body ++ "\"\n").data =
        "dns_servers_".data ++ (nb.data ++ '=' :: ('"' :: (body.data ++ ['"', '\n']))) := by
      show ((("dns_servers_".data ++ nb.data) ++ ['=', '"']) ++ body.data) ++ ['"', '\n'] = _
      simp [List.append_assoc]
    rw [e1, e2] at h
    have h' := (List.prefix_append_right_inj _).mp h
    exact String.ext (eqmark_prefix_inj n.data nb.data []
      ('"' :: (body.data ++ ['"', '\n'])) hn hnb h')
  · rintro rfl
    exact dnsOpen_elem_self n body

theorem dnsOpen_elemL (n nb : String) (hn : '=' ∉ n.data)
    (hnb : '=' ∉ nb.data) :
    dnsOpen n ("dns_servers_" ++ nb ++ "=(") = true ↔ n = nb := by
  constructor
  · intro h
    unfold dnsOpen at h
    rw [List.isPrefixOf_iff_prefix] at h
    have e1 : ("dns_servers_" ++ n ++ "=").data =
        "dns_servers_".data ++ (n.data ++ ['=']) :=
      List.append_assoc "dns_servers_".data n.data ['=']
    have e2 : ("dns_servers_" ++ nb ++ "=(").data =
        "dns_servers_".data ++ (nb.data ++ '=' :: ['(']) := by
      show (("dns_servers_".data ++ nb.data) ++ ['=', '(']) = _
      simp [List.append_assoc]
    rw [e1, e2] at h
    have h' := (List.prefix_append_right_inj _).mp h
    exact String.ext (eqmark_prefix_inj n.data nb.data [] ['('] hn hnb h')
  · rintro rfl
    exact dnsOpen_elem_selfL n

theorem dnsOpen_contra (n l : String) (c : Char) (hl : l.data.head? = some c)
    (hc : c ≠ 'd') (h : dnsOpen n l = true) : False := by
  rw [dnsOpen_false_of_head n l c hl hc] at h
  exact Bool.noConfusion h

theorem blockShape_dns (name : String) (iface : Interface)
    (ip4L routeL : List String)
    (h4 : ∀ l ∈ ip4L, l.data.head? = some ' ')
    (hrl : ∀ l ∈ routeL, l.data.head? = some ' ')
    (n : String) (hn : '=' ∉ n.data) (hname : '=' ∉ name.data) :
    (∃ l ∈ blockShape name iface ip4L routeL, dnsOpen n l = true) ↔
      (n = name ∧ iface.dns ≠ []) := by
  constructor
  · rintro ⟨l, hl, hdn⟩
    unfold blockShape at hl
    simp only [List.mem_append, List.mem_singleton, List.mem_cons,
      List.mem_nil_iff, or_false] at hl
    rcases hl with ((((((((hl | hl) | hl) | hl) | hl) | hl) | hl) | hl) | hl) | hl
    · exact absurd hdn (by
        rw [dnsOpen_false_of_head n l '#' (labelLines_head iface l hl) (by decide)]
        simp)
    · subst hl
      exact absurd hdn
        (by rw [dnsOpen_false_of_head n (configOpen name) 'c' rfl (by decide)]; simp)
    · exact absurd hdn (by
        rw [dnsOpen_false_of_head n l ' ' (h4 l hl) (by decide)]
        simp)
    · exact absurd hdn (by
        rw [dnsOpen_false_of_head n l ' ' (map_fmtIp6_head iface.ip6s l hl) (by decide)]
        simp)
    · rcases hl with rfl | rfl
      · exact absurd hdn
          (by rw [dnsOpen_false_of_head n "\"" '"' rfl (by decide)]; simp)
      · exact absurd hdn (by rw [dnsOpen_empty n]; simp)
    · subst hl
      exact absurd hdn
        (by rw [dnsOpen_false_of_head n (routesOpen name) 'r' rfl (by decide)]; simp)
    · exact absurd hdn (by
        rw [dnsOpen_false_of_head n l ' ' (hrl l hl) (by decide)]
        simp)
    · exact absurd hdn (by
        rw [dnsOpen_false_of_head n l ' ' (gatewayLines_head iface l hl) (by decide)]
        simp)
    · rcases hl with rfl | rfl
      · exact absurd hdn
          (by rw [dnsOpen_false_of_head n "\"" '"' rfl (by decide)]; simp)
      · exact absurd hdn (by rw [dnsOpen_empty n]; simp)
    · by_cases hd : iface.dns = []
      · simp [dnsLines, hd] at hl
      · simp only [dnsLines, hd, if_pos, ne_eq, not_false_iff, if_true] at hl
        rcases List.mem_cons.mp hl with rfl | hl'
        · exact ⟨(dnsOpen_elem n name (pyJoin "\n" iface.dns) hn hname).mp hdn, hd⟩
        · rcases List.mem_singleton.mp hl' with rfl
          exact absurd hdn (by rw [dnsOpen_empty n]; simp)
  · rintro ⟨rfl, hd⟩
    refine ⟨"dns_servers_" ++ n ++ "=\"" ++ pyJoin "\n" iface.dns ++ "\"\n",
      ?_, dnsOpen_elem_self n (pyJoin "\n" iface.dns)⟩
    unfold blockShape dnsLines
    simp [hd]

theorem confdBlockL_dns (name : String) (iface : Interface)
    (n : String) (hn : '=' ∉ n.data) (hname : '=' ∉ name.data) :
    (∃ l ∈ confdBlockL name iface, dnsOpen n l = true) ↔
      (n = name ∧ iface.dns ≠ []) := by
  constructor
  · rintro ⟨l, hl, hdn⟩
    unfold confdBlockL at hl
    simp only [List.mem_append, List.mem_singleton, List.mem_cons,
      List.mem_nil_iff, or_false] at hl
    rcases hl with ((((((((hl | hl) | hl) | hl) | hl) | hl) | hl) | hl) | hl) | hl
    · exact absurd hdn (by
        rw [dnsOpen_false_of_head n l '#' (labelLines_head iface l hl) (by decide)]
        simp)
    · subst hl
      exact absurd hdn
        (by rw [dnsOpen_false_of_head n (configOpenL name) 'c' rfl (by decide)]; simp)
    · exact absurd hdn (by
        rw [dnsOpen_false_of_head n l ' ' (map_fmtIp4L_head iface.ip4s l hl) (by decide)]
        simp)
    · exact absurd hdn (by
        rw [dnsOpen_false_of_head n l ' ' (map_fmtIp6L_head iface.ip6s l hl) (by decide)]
        simp)
    · rcases hl with rfl | rfl
      · exact absurd hdn
          (by rw [dnsOpen_false_of_head n ")" ')' rfl (by decide)]; simp)
      · exact absurd hdn (by rw [dnsOpen_empty n]; simp)
    · subst hl
      exact absurd hdn
        (by rw [dnsOpen_false_of_head n (routesOpenL name) 'r' rfl (by decide)]; simp)
    · exact absurd hdn (by
        rw [dnsOpen_false_of_head n l ' '
          (map_fmtRouteL_head (explicitRoutes iface) l hl) (by decide)]
        simp)
    · exact absurd hdn (by
        rw [dnsOpen_false_of_head n l ' ' (gatewayLinesL_head iface l hl) (by decide)]
        simp)
    · rcases hl with rfl | rfl
      · exact absurd hdn
          (by rw [dnsOpen_false_of_head n ")" ')' rfl (by decide)]; simp)
      · exact absurd hdn (by rw [dnsOpen_empty n]; simp)
    · by_cases hd : iface.dns = []
      · simp [dnsLinesL, hd] at hl
      · simp only [dnsLinesL, hd, ne_eq, not_false_iff, if_true] at hl
        rcases List.mem_cons.mp hl with rfl | hl'
        · exact ⟨(dnsOpen_elemL n name hn hname).mp hdn, hd⟩
        · rcases List.mem_append.mp hl' with hm | hm
          · obtain ⟨x, _, rfl⟩ := List.mem_map.mp hm
            exact absurd hdn
              (by rw [dnsOpen_false_of_head n (" \"" ++ x ++ "\"") ' ' rfl (by decide)]; simp)
          · rcases List.mem_cons.mp hm with rfl | hm'
            · exact absurd hdn
                (by rw [dnsOpen_false_of_head n ")" ')' rfl (by decide)]; simp)
            · rcases List.mem_singleton.mp hm' with rfl
              exact absurd hdn (by rw [dnsOpen_empty n]; simp)
  · rintro ⟨rfl, hd⟩
    refine ⟨"dns_servers_" ++ n ++ "=(", ?_, dnsOpen_elem_selfL n⟩
    unfold confdBlockL dnsLinesL
    simp [hd]

theorem preamble_dnsOpen_false (ipAvail : Bool) (time comm n : String) :
    ∀ l ∈ preambleLines ipAvail time comm, dnsOpen n l = false := by
  intro l hl
  cases ipAvail with
  | false =>
    simp [preambleLines] at hl
    rcases hl with rfl | rfl | rfl | rfl
    · exact dnsOpen_false_of_head n (_header time comm) '#' rfl (by decide)
    · exact dnsOpen_empty n
    · exact dnsOpen_false_of_head n "modules=\"ifconfig\"" 'm' rfl (by decide)
    · exact dnsOpen_empty n
  | true =>
    simp [preambleLines] at hl
    rcases hl with rfl | rfl | rfl | rfl
    · exact dnsOpen_false_of_head n (_header time comm) '#' rfl (by decide)
    · exact dnsOpen_empty n
    · exact dnsOpen_false_of_head n "modules=\"iproute2\"" 'm' rfl (by decide)
    · exact dnsOpen_empty n

theorem keys_nodup_val (ifs : List (String × Interface))
    (hnd : (ifs.map Prod.fst).Nodup) (n : String) (i j : Interface)
    (hi : (n, i) ∈ ifs) (hj : (n, j) ∈ ifs) : i = j := by
  induction ifs with
  | nil => cases hi
  | cons q rest ih =>
    obtain ⟨name, iface⟩ := q
    rw [List.map_cons] at hnd
    have h1 := (List.nodup_cons.mp hnd).1
    have h2 := (List.nodup_cons.mp hnd).2
    rcases List.mem_cons.mp hi with he | hi' <;>
      rcases List.mem_cons.mp hj with he2 | hj'
    · injection he with e1 e2
      injection he2 with e3 e4
      rw [e2, e4]
    · exfalso
      injection he with e1 e2
      subst e1
      exact h1 (by simpa using List.mem_map_of_mem Prod.fst hj')
    · exfalso
      injection he2 with e1 e2
      subst e1
      exact h1 (by simpa using List.mem_map_of_mem Prod.fst hi')
    · exact ih h2 hi' hj'

theorem confdBody_dns_forward (ifs : List (String × Interface)) :
    ∀ b names, confdBody ifs = some (b, names) →
    (∀ k ∈ ifs.map Prod.fst, '=' ∉ k.data) →
    ∀ n, '=' ∉ n.data → (∃ l ∈ b, dnsOpen n l = true) →
    ∃ p ∈ ifs, n = Prod.fst p ∧ (Prod.snd p).dns ≠ [] := by
  induction ifs with
  | nil =>
    intro b names h _ n _ hex
    simp [confdBody] at h
    rcases h with ⟨rfl, rfl⟩
    rcases hex with ⟨l, hl, _⟩
    simp at hl
  | cons q rest ih =>
    obtain ⟨name, iface⟩ := q
    intro b names h hkeys n hn hex
    rcases h1 : confdBlock name iface with _ | bi
    · unfold confdBody at h
      rw [h1] at h
      simp at h
    rcases h2 : confdBody rest with _ | pr
    · unfold confdBody at h
      simp only [h1, h2] at h
      simp at h
    obtain ⟨brest, nrest⟩ := pr
    unfold confdBody at h
    simp only [h1, h2] at h
    simp at h
    obtain ⟨hbb, hnn⟩ := h
    subst hbb
    obtain ⟨ip4L, routeL, hi4, hirt, rfl⟩ := confdBlock_inv name iface bi h1
    rcases hex with ⟨l, hl, hdn⟩
    have hname : '=' ∉ name.data := hkeys name (by simp)
    rcases List.mem_append.mp hl with hm | hm
    · have hiff := (blockShape_dns name iface ip4L routeL
        (mapO_fmtIp4_head _ _ hi4) (mapO_fmtRoute_head _ _ hirt)
        n hn hname).mp ⟨l, hm, hdn⟩
      exact ⟨(name, iface), List.mem_cons_self _ _, hiff.1, hiff.2⟩
    · obtain ⟨p, hp, he⟩ := ih brest nrest h2
        (fun k hk => hkeys k (by rw [List.map_cons]; exact List.mem_cons_of_mem _ hk))
        n hn ⟨l, hm, hdn⟩
      exact ⟨p, List.mem_cons_of_mem _ hp, he⟩

theorem confdBody_dns_backward (ifs : List (String × Interface)) :
    ∀ b names, confdBody ifs = some (b, names) →
    ∀ n iface, (n, iface) ∈ ifs → iface.dns ≠ [] →
    ∃ l ∈ b, dnsOpen n l = true := by
  induction ifs with
  | nil =>
    intro b names h n iface hmem
    cases hmem
  | cons q rest ih =>
    obtain ⟨name, iface0⟩ := q
    intro b names h n iface hmem hd
    rcases h1 : confdBlock name iface0 with _ | bi
    · unfold confdBody at h
      rw [h1] at h
      simp at h
    rcases h2 : confdBody rest with _ | pr
    · unfold confdBody at h
      simp only [h1, h2] at h
      simp at h
    obtain ⟨brest, nrest⟩ := pr
    unfold confdBody at h
    simp only [h1, h2] at h
    simp at h
    obtain ⟨hbb, hnn⟩ := h
    subst hbb
    obtain ⟨ip4L, routeL, hi4, hirt, rfl⟩ := confdBlock_inv name iface0 bi h1
    rcases List.mem_cons.mp hmem with he | hm'
    · injection he with e1 e2
      subst e1
      subst e2
      refine ⟨"dns_servers_" ++ n ++ "=\"" ++ pyJoin "\n" iface.dns ++ "\"\n",
        List.mem_append_left _ ?_, dnsOpen_elem_self n _⟩
      unfold blockShape dnsLines
      simp [hd]
    · obtain ⟨l, hl, hdn⟩ := ih brest nrest h2 n iface hm' hd
      exact ⟨l, List.mem_append_right _ hl, hdn⟩

theorem confdBodyL_dns_forward (ifs : List (String × Interface)) :
    (∀ k ∈ ifs.map Prod.fst, '=' ∉ k.data) →
    ∀ n, '=' ∉ n.data → (∃ l ∈ (confdBodyL ifs).1, dnsOpen n l = true) →
    ∃ p ∈ ifs, n = Prod.fst p ∧ (Prod.snd p).dns ≠ [] := by
  induction ifs with
  | nil =>
    intro _ n _ hex
    rcases hex with ⟨l, hl, _⟩
    simp [confdBodyL] at hl
  | cons q rest ih =>
    obtain ⟨name, iface⟩ := q
    intro hkeys n hn hex
    have hname : '=' ∉ name.data := hkeys name (by simp)
    rcases hex with ⟨l, hl, hdn⟩
    have hunf : (confdBodyL ((name, iface) :: rest)).1 =
        confdBlockL name iface ++ (confdBodyL rest).1 := rfl
    rw [hunf] at hl
    rcases List.mem_append.mp hl with hm | hm
    · have hiff := (confdBlockL_dns name iface n hn hname).mp ⟨l, hm, hdn⟩
      exact ⟨(name, iface), List.mem_cons_self _ _, hiff.1, hiff.2⟩
    · obtain ⟨p, hp, he⟩ := ih
        (fun k hk => hkeys k (by rw [List.map_cons]; exact List.mem_cons_of_mem _ hk))
        n hn ⟨l, hm, hdn⟩
      exact ⟨p, List.mem_cons_of_mem _ hp, he⟩

theorem confdBodyL_dns_backward (ifs : List (String × Interface)) :
    ∀ n iface, (n, iface) ∈ ifs → iface.dns ≠ [] →
    ∃ l ∈ (confdBodyL ifs).1, dnsOpen n l = true := by
  induction ifs with
  | nil =>
    intro n iface hmem
    cases hmem
  | cons q rest ih =>
    obtain ⟨name, iface0⟩ := q
    intro n iface hmem hd
    have hunf : (confdBodyL ((name, iface0) :: rest)).1 =
        confdBlockL name iface0 ++ (confdBodyL rest).1 := rfl
    rw [hunf]
    rcases List.mem_cons.mp hmem with he | hm'
    · injection he with e1 e2
      subst e1
      subst e2
      refine ⟨"dns_servers_" ++ n ++ "=(",
        List.mem_append_left _ ?_, dnsOpen_elem_selfL n⟩
      unfold confdBlockL dnsLinesL
      simp [hd]
    · obtain ⟨l, hl, hdn⟩ := ih n iface hm' hd
      exact ⟨l, List.mem_append_right _ hl, hdn⟩

/-- Claim C5: for a mapping with distinct interface names (none
containing an `=`, which no interface name does) whose render succeeds, a
`dns_servers_<name>` block opening appears among the rendered lines of
either dialect exactly when that interface's `dns` sequence is
non-empty. -/
theorem claim_C5 (ipAvail : Bool) (time comm : String)
    (ifs : List (String × Interface)) (b names : List String)
    (hb : confdBody ifs = some (b, names))
    (hnd : (ifs.map Prod.fst).Nodup)
    (hkeys : ∀ k ∈ ifs.map Prod.fst, '=' ∉ k.data)
    (n : String) (iface : Interface) (hmem : (n, iface) ∈ ifs) :
    ((∃ l ∈ preambleLines ipAvail time comm ++ b, dnsOpen n l = true) ↔
      iface.dns ≠ []) ∧
    ((∃ l ∈ preambleLines ipAvail time comm ++ (confdBodyL ifs).1,
        dnsOpen n l = true) ↔ iface.dns ≠ []) := by
  have hn : '=' ∉ n.data := hkeys n (List.mem_map_of_mem Prod.fst hmem)
  constructor
  · constructor
    · rintro ⟨l, hl, hdn⟩
      rcases List.mem_append.mp hl with hm | hm
      · exact absurd hdn
          (by rw [preamble_dnsOpen_false ipAvail time comm n l hm]; simp)
      · obtain ⟨p, hp, he1, he2⟩ :=
          confdBody_dns_forward ifs b names hb hkeys n hn ⟨l, hm, hdn⟩
        obtain ⟨p1, p2⟩ := p
        subst he1
        rw [keys_nodup_val ifs hnd _ iface p2 hmem hp]
        exact he2
    · intro hd
      obtain ⟨l, hl, hdn⟩ := confdBody_dns_backward ifs b names hb n iface hmem hd
      exact ⟨l, List.mem_append_right _ hl, hdn⟩
  · constructor
    · rintro ⟨l, hl, hdn⟩
      rcases List.mem_append.mp hl with hm | hm
      · exact absurd hdn
          (by rw [preamble_dnsOpen_false ipAvail time comm n l hm]; simp)
      · obtain ⟨p, hp, he1, he2⟩ :=
          confdBodyL_dns_forward ifs hkeys n hn ⟨l, hm, hdn⟩
        obtain ⟨p1, p2⟩ := p
        subst he1
        rw [keys_nodup_val ifs hnd _ iface p2 hmem hp]
        exact he2
    · intro hd
      obtain ⟨l, hl, hdn⟩ := confdBodyL_dns_backward ifs n iface hmem hd
      exact ⟨l, List.mem_append_right _ hl, hdn⟩

/-- Claim C5 witness: on `sampleCfg` (whose `eth0` has one DNS server) a
`dns_servers_eth0` opening is present in both dialects exactly because
the DNS list is non-empty. -/
theorem claim_C5_witness :
    ((∃ l ∈ preambleLines true "T" "C" ++ sampleBody,
        dnsOpen "eth0" l = true) ↔ sampleIface.dns ≠ []) ∧
    ((∃ l ∈ preambleLines true "T" "C" ++ (confdBodyL sampleCfg).1,
        dnsOpen "eth0" l = true) ↔ sampleIface.dns ≠ []) :=
  claim_C5 true "T" "C" sampleCfg sampleBody ["eth0"] rfl (by decide)
    (by decide) "eth0" sampleIface (by decide)

theorem restartLoop_ok_step (w : World) (i : String) (rest : List String)
    (sv : Option Nat) (hflush : w.ipAvail = true → w.flushStatus i = 0)
    (hrestart : w.restartStatus i = 0) :
    restartLoop w (i :: rest) sv =
      (okActions w i ++ (restartLoop w rest (some 0)).1,
       (restartLoop w rest (some 0)).2) := by
  cases hip : w.ipAvail with
  | false =>
    conv_lhs => rw [restartLoop.eq_def]
    simp [hip, hrestart, okActions]
  | true =>
    conv_lhs => rw [restartLoop.eq_def]
    simp [hip, hrestart, okActions, _clean_assigned_ip, hflush hip]

theorem restartLoop_fail_step (w : World) (i : String) (rest : List String)
    (sv : Option Nat) (hflush : w.ipAvail = true → w.flushStatus i = 0)
    (hbad : w.restartStatus i ≠ 0) :
    restartLoop w (i :: rest) sv =
      (okActions w i,
       Except.ok (500, "Couldn't restart network " ++ i ++ ": " ++
         toString (w.restartStatus i))) := by
  cases hip : w.ipAvail with
  | false =>
    conv_lhs => rw [restartLoop.eq_def]
    simp [hip, hbad, okActions]
  | true =>
    conv_lhs => rw [restartLoop.eq_def]
    simp [hip, hbad, okActions, _clean_assigned_ip, hflush hip]

theorem restartLoop_pre (w : World) (pre : List String) (bad : String)
    (post : List String) :
    ∀ sv : Option Nat,
    (∀ i ∈ pre, (w.ipAvail = true → w.flushStatus i = 0) ∧ w.restartStatus i = 0) →
    (w.ipAvail = true → w.flushStatus bad = 0) → w.restartStatus bad ≠ 0 →
    restartLoop w (pre ++ bad :: post) sv =
      (pre.flatMap (okActions w) ++ okActions w bad,
       Except.ok (500, "Couldn't restart network " ++ bad ++ ": " ++
         toString (w.restartStatus bad))) := by
  induction pre with
  | nil =>
    intro sv _ hbf hbr
    rw [List.nil_append, restartLoop_fail_step w bad post sv hbf hbr]
    simp
  | cons i rest ih =>
    intro sv hpre hbf hbr
    have hi := hpre i (List.mem_cons_self _ _)
    rw [List.cons_append, restartLoop_ok_step w i (rest ++ bad :: post) sv hi.1 hi.2,
      ih (some 0) (fun j hj => hpre j (List.mem_cons_of_mem _ hj)) hbf hbr]
    simp [List.flatMap_cons, List.append_assoc]

/-- Claim C6: when the init-script restart for an interface `bad` exits
non-zero (after a prefix `pre` of interfaces processed successfully),
`configure_network` returns status 500 with a message naming `bad` and
the wait status, its trace is exactly the batch file write, the hostname
call, the per-interface actions of `pre`, and the actions for `bad` —
nothing of any subsequent interface in `post` is performed, and no action
undoes the file write or the hostname change (the model has no rollback
action at all). -/
theorem claim_C6 (w : World) (hostname : String)
    (interfaces : List (String × Interface)) (time comm : String)
    (data : String) (pre : List String) (bad : String) (post : List String)
    (hrender : (if w.rcExists then _confd_net_file w.ipAvail time comm interfaces
        else some (_confd_net_file_legacy w.ipAvail time comm interfaces)) =
      some (data, pre ++ bad :: post))
    (hhost : w.sethostnameErr = none)
    (hpre : ∀ i ∈ pre,
      (w.ipAvail = true → w.flushStatus i = 0) ∧ w.restartStatus i = 0)
    (hbf : w.ipAvail = true → w.flushStatus bad = 0)
    (hbr : w.restartStatus bad ≠ 0) :
    configure_network w hostname interfaces time comm =
      (Action.writeFiles (assembledFiles w hostname data time comm) ::
        Action.setHostnameCall hostname ::
        (pre.flatMap (okActions w) ++ okActions w bad),
       Except.ok (500, "Couldn't restart network " ++ bad ++ ": " ++
         toString (w.restartStatus bad))) := by
  unfold configure_network
  rw [hrender]
  simp only [hhost]
  rw [restartLoop_pre w pre bad post none hpre hbf hbr]

/-- Claim C6 witness: in `restartFailWorld` over three interfaces, the
restart of `eth1` fails (wait status 256) after `eth0` succeeded:
`configure_network` stops with the 500 message for `eth1`, `eth2` is
never touched, and the file write and hostname call stay in the trace. -/
theorem claim_C6_witness :
    configure_network restartFailWorld "myhost" cfg3 "T" "C" =
      (Action.writeFiles (assembledFiles restartFailWorld "myhost"
          (_confd_net_file_legacy true "T" "C" cfg3).1 "T" "C") ::
        Action.setHostnameCall "myhost" ::
        (["eth0"].flatMap (okActions restartFailWorld) ++
          okActions restartFailWorld "eth1"),
       Except.ok (500, "Couldn't restart network eth1: " ++
         toString (restartFailWorld.restartStatus "eth1"))) :=
  claim_C6 restartFailWorld "myhost" cfg3 "T" "C"
    (_confd_net_file_legacy true "T" "C" cfg3).1 ["eth0"] "eth1" ["eth2"]
    rfl rfl (by decide) (by decide) (by decide)

end GentooNet
